import Mathlib

/-!
Verification of the PDF discovery / categorization / upload pipeline of
`src/pdf_processor.py` (class `NCDHHSPDFProcessor`).

Strings are modelled as `List Char`, HTTP bodies as `List Nat` (byte values).
The Python regex primitives used by the source (`re.sub` on fixed character
classes, `str.lower`, `str.strip`, substring membership `in`) are modelled
character by character below.  `str.lower` is modelled by ASCII case folding,
which agrees with Python on every string the source ever lowercases after its
own character-class filtering (the filtered alphabets are ASCII).
Wall-clock timestamps (`datetime.now()`) are omitted from the records.
The effectful collaborators (HTTP fetch, S3 put_object) are passed in as
explicit outcome oracles; everything else is translated from the source.
-/

set_option maxHeartbeats 1000000

namespace PdfProc

/-- Python `\s` / `str.isspace()` character class (Unicode whitespace),
used by `re.sub(r'[^a-zA-Z0-9\s-]', ...)` and `re.sub(r'\s+', ...)` and `str.strip()`. -/
def pyIsSpace (c : Char) : Bool :=
  c.toNat = 32 || c.toNat = 9 || c.toNat = 10 || c.toNat = 13 || c.toNat = 11 || c.toNat = 12 ||
  c.toNat = 28 || c.toNat = 29 || c.toNat = 30 || c.toNat = 31 ||
  c.toNat = 133 || c.toNat = 160 || c.toNat = 5760 ||
  (8192 ≤ c.toNat && c.toNat ≤ 8202) ||
  c.toNat = 8232 || c.toNat = 8233 || c.toNat = 8239 || c.toNat = 8287 || c.toNat = 12288

/-- `[A-Z]` -/
def isUpperAscii (c : Char) : Bool := 65 ≤ c.toNat && c.toNat ≤ 90

/-- `[a-z]` -/
def isLowerAscii (c : Char) : Bool := 97 ≤ c.toNat && c.toNat ≤ 122

/-- `[0-9]` -/
def isDigitAscii (c : Char) : Bool := 48 ≤ c.toNat && c.toNat ≤ 57

/-- `[a-zA-Z0-9]` -/
def isAsciiAlphaNum (c : Char) : Bool := isUpperAscii c || isLowerAscii c || isDigitAscii c

/-- ASCII case folding; models Python `str.lower()` on the ASCII-restricted
strings produced by the sanitizers (and approximates it elsewhere). -/
def asciiLower (c : Char) : Char :=
  if isUpperAscii c then Char.ofNat (c.toNat + 32) else c

/-- Pointwise `str.lower()`. -/
def lowerStr (l : List Char) : List Char := l.map asciiLower

/-- Python substring membership `needle in hay`. -/
def isSubstrOf (needle : List Char) : List Char → Bool
  | [] => needle.isEmpty
  | c :: rest => needle.isPrefixOf (c :: rest) || isSubstrOf needle rest

/-- `re.sub(r'u+', 'u', l)` for a single character `u`: collapse runs of `u`
into a single `u`. -/
def collapseRuns (u : Char) : List Char → List Char
  | [] => []
  | [c] => [c]
  | c :: d :: rest =>
    if c == u && d == u then collapseRuns u (d :: rest)
    else c :: collapseRuns u (d :: rest)

/-- `re.sub(r'\s+', '-', l)`: replace each maximal whitespace run with one hyphen. -/
def squashSpaces : List Char → List Char
  | [] => []
  | [c] => if pyIsSpace c then ['-'] else [c]
  | c :: d :: rest =>
    if pyIsSpace c then
      (if pyIsSpace d then squashSpaces (d :: rest) else '-' :: squashSpaces (d :: rest))
    else c :: squashSpaces (d :: rest)

/-- Python `str.strip()`: drop whitespace from both ends. -/
def pyStrip (l : List Char) : List Char :=
  ((l.dropWhile pyIsSpace).reverse.dropWhile pyIsSpace).reverse

/-- The character class kept intact by `sanitize_filename`
(`re.sub(r'[^a-zA-Z0-9.-]', '_', ...)` replaces everything else):
ASCII alphanumerics, `.` (code 46) and `-` (code 45). -/
def allowedFilenameChar (c : Char) : Bool :=
  isAsciiAlphaNum c || c.toNat = 46 || c.toNat = 45

/-- Model of `NCDHHSPDFProcessor.sanitize_filename` (src/pdf_processor.py:36-42):
replace every character outside `[a-zA-Z0-9.-]` with `_`, collapse `_` runs,
lower-case. -/
def sanitize_filename (filename : List Char) : List Char :=
  let sanitized := filename.map (fun c => if allowedFilenameChar c then c else '_')
  let sanitized := collapseRuns '_' sanitized
  lowerStr sanitized

/-- The character class kept by `sanitize_folder_name`
(`re.sub(r'[^a-zA-Z0-9\s-]', '', ...)` removes everything else). -/
def allowedFolderChar (c : Char) : Bool :=
  isAsciiAlphaNum c || pyIsSpace c || c.toNat = 45

/-- Model of `NCDHHSPDFProcessor.sanitize_folder_name` (src/pdf_processor.py:44-52):
remove characters outside `[a-zA-Z0-9\s-]`, replace whitespace runs with `-`,
collapse `-` runs, then `.lower().strip()`. -/
def sanitize_folder_name (folder_name : List Char) : List Char :=
  let sanitized := folder_name.filter allowedFolderChar
  let sanitized := squashSpaces sanitized
  let sanitized := collapseRuns '-' sanitized
  pyStrip (lowerStr sanitized)

example : sanitize_filename "test@file#.pdf".toList = "test_file_.pdf".toList := by decide
example : sanitize_filename "test___file.pdf".toList = "test_file.pdf".toList := by decide
example : sanitize_folder_name "child   welfare---manual".toList = "child-welfare-manual".toList := by decide
example : sanitize_folder_name " a ".toList = "-a-".toList := by decide

/-! ### Categorizer (src/pdf_processor.py:54-103) -/

/-- Keywords of the `child-welfare-manuals` rule. -/
def kwManuals : List (List Char) :=
  ["child welfare manual", "cws manual", "adoptions",
   "cps-assessments", "cps-intake", "cross-functions",
   "permanency-planning", "in-home", "icpc",
   "purpose", "rams-manual", "evidence-based-prevention"].map String.toList

/-- Keywords of the `child-welfare-appendices` rule. -/
def kwAppendices : List (List Char) :=
  ["appendix", "funding", "pregnancy-services",
   "case-record", "best-practice", "data-collection", "cpps"].map String.toList

/-- Keywords of the `child-welfare-practice-resources` rule. -/
def kwPractice : List (List Char) :=
  ["practice", "resource", "guidance", "lgbtq", "fatality",
   "discipline", "substance", "safety", "firearm",
   "circles-of-safety", "capp", "cmep", "reasonable",
   "prudent", "youth-in-transition"].map String.toList

/-- Keywords of the `safe-sleep-resources` rule. -/
def kwSafeSleep : List (List Char) :=
  ["safe sleep", "safesleep", "sleep-comic"].map String.toList

/-- Keywords of the `disaster-preparedness` rule. -/
def kwDisaster : List (List Char) :=
  ["disaster", "county-attestation", "disaster-plan"].map String.toList

/-- Keywords of the `path-sdm-tools-manuals` rule. -/
def kwPathSdm : List (List Char) :=
  ["path", "sdm", "screening", "risk-assessment",
   "safety-manual", "fsna", "csna", "technology-usage"].map String.toList

/-- Keywords of the `administrative-manuals` rule. -/
def kwAdmin : List (List Char) :=
  ["administrative", "dss-admin"].map String.toList

/-- `any(keyword in text for keyword in kws)` -/
def hasAnyKw (kws : List (List Char)) (text : List Char) : Bool :=
  kws.any (fun k => isSubstrOf k text)

/-- `f"{link_text} {link_url} {nearby_text}".lower()` -/
def catText (link_text link_url nearby_text : List Char) : List Char :=
  lowerStr (link_text ++ ' ' :: link_url ++ ' ' :: nearby_text)

/-- Model of `NCDHHSPDFProcessor.categorize_section` (src/pdf_processor.py:54-103):
an ordered chain of keyword-membership checks with default `other-resources`. -/
def categorize_section (link_text link_url nearby_text : List Char) : List Char :=
  let text := catText link_text link_url nearby_text
  if hasAnyKw kwManuals text then "child-welfare-manuals".toList
  else if hasAnyKw kwAppendices text then "child-welfare-appendices".toList
  else if hasAnyKw kwPractice text then "child-welfare-practice-resources".toList
  else if hasAnyKw kwSafeSleep text then "safe-sleep-resources".toList
  else if hasAnyKw kwDisaster text then "disaster-preparedness".toList
  else if hasAnyKw kwPathSdm text then "path-sdm-tools-manuals".toList
  else if hasAnyKw kwAdmin text then "administrative-manuals".toList
  else "other-resources".toList

/-- The ordered rule list of `categorize_section`, as data. -/
def categoryRules : List (List (List Char) × List Char) :=
  [(kwManuals, "child-welfare-manuals".toList),
   (kwAppendices, "child-welfare-appendices".toList),
   (kwPractice, "child-welfare-practice-resources".toList),
   (kwSafeSleep, "safe-sleep-resources".toList),
   (kwDisaster, "disaster-preparedness".toList),
   (kwPathSdm, "path-sdm-tools-manuals".toList),
   (kwAdmin, "administrative-manuals".toList)]

/-- Spec-side definition (spec Section 4.2, written from the spec's words, to be
compared with `categorize_section`): evaluate the fixed ordered rule list and
return the label of the first rule any of whose keywords occurs in the
lower-cased concatenation; `other-resources` when none matches. -/
def categorizeFirstMatch (link_text link_url nearby_text : List Char) : List Char :=
  let text := catText link_text link_url nearby_text
  match categoryRules.find? (fun r => hasAnyKw r.1 text) with
  | some r => r.2
  | none => "other-resources".toList

example : categorize_section "CPS Assessment".toList "cps.pdf".toList "child welfare".toList
    = "other-resources".toList := by decide
example : categorize_section "Unknown Document".toList "unknown.pdf".toList "random text".toList
    = "other-resources".toList := by decide
example : categorize_section "CPS Assessment Manual".toList "cps-assessments.pdf".toList
    "child welfare manual".toList = "child-welfare-manuals".toList := by decide

/-! ### Downloader (src/pdf_processor.py:204-226) -/

/-- One fetched HTTP response: raw body bytes and the `content-type` header
(`''` when the header is absent). -/
structure FetchResponse where
  content : List Nat
  contentTypeHeader : List Char
deriving DecidableEq

/-- The 4-byte PDF signature `%PDF`. -/
def pdfMagic : List Nat := [37, 80, 68, 70]

/-- `"Invalid file type. Expected PDF, got: "` -/
def invalidTypeMsg : List Char := "Invalid file type. Expected PDF, got: ".toList

/-- Model of `NCDHHSPDFProcessor.download_pdf` (src/pdf_processor.py:204-226).
The HTTP fetch itself is an oracle argument (`.error` = transport failure /
non-2xx raised by `raise_for_status`); the validation logic is the source's:
lower-case the declared content type, reject unless the body starts with
`%PDF` or the lowered type contains `pdf`. -/
def download_pdf (fetch : Except (List Char) FetchResponse) :
    Except (List Char) (List Nat × List Char) :=
  match fetch with
  | .error e => .error e
  | .ok resp =>
    let content_type := lowerStr resp.contentTypeHeader
    let content := resp.content
    if !(pdfMagic.isPrefixOf content) && !(isSubstrOf "pdf".toList content_type) then
      .error (invalidTypeMsg ++ content_type)
    else
      .ok (content, content_type)

/-! ### Uploader (src/pdf_processor.py:171-202) -/

/-- The argument record of the one `s3_client.put_object` call
(wall-clock metadata entries omitted). -/
structure PutObjectRequest where
  bucket : List Char
  key : List Char
  body : List Nat
  contentType : List Char
  metaOriginalName : List Char
  metaSection : List Char
  metaSource : List Char
deriving DecidableEq

/-- The dict `{'success': True, 'key': key, 'bucket': ...}` returned on success. -/
structure UploadResult where
  success : Bool
  key : List Char
  bucket : List Char
deriving DecidableEq

/-- Model of `NCDHHSPDFProcessor.upload_to_s3` (src/pdf_processor.py:171-202):
returns the `put_object` request it issues together with the outcome
(`store` is the S3 oracle: `.error` = the store raised). -/
def upload_to_s3 (bucket : List Char) (content : List Nat) (filename sectionName : List Char)
    (store : Except (List Char) Unit) :
    PutObjectRequest × Except (List Char) UploadResult :=
  let sanitized_name := sanitize_filename filename
  let sanitized_section := sanitize_folder_name sectionName
  let key := "ncdhhs-pdfs/".toList ++ sanitized_section ++ '/' :: sanitized_name
  let req : PutObjectRequest :=
    { bucket := bucket, key := key, body := content,
      contentType := "application/pdf".toList,
      metaOriginalName := filename, metaSection := sectionName,
      metaSource := "ncdhhs-policies".toList }
  (req,
    match store with
    | .error e => .error e
    | .ok _ => .ok { success := true, key := key, bucket := bucket })

/-! ### Filename derivation helpers: `urlparse(url).path` and `os.path.basename`
(library functions used at src/pdf_processor.py:254-258) -/

/-- `l.split(sep, 1)`: the part before the first `sep`, and `some` rest after it. -/
def splitOnceAt (sep : Char) : List Char → List Char × Option (List Char)
  | [] => ([], none)
  | c :: rest =>
    if c == sep then ([], some rest)
    else
      let r := splitOnceAt sep rest
      (c :: r.1, r.2)

/-- `[a-z]` or `[A-Z]`. -/
def isAsciiAlphaChar (c : Char) : Bool := isUpperAscii c || isLowerAscii c

/-- URL scheme characters: letters, digits, `+` (43), `-` (45), `.` (46). -/
def isSchemeChar (c : Char) : Bool :=
  isAsciiAlphaNum c || c.toNat = 43 || c.toNat = 45 || c.toNat = 46

/-- Strip `scheme:` when the part before the first `:` is a nonempty run of
scheme characters starting with a letter (CPython `urlsplit`). -/
def dropScheme (u : List Char) : List Char :=
  match splitOnceAt ':' u with
  | (before, some after) =>
    match before with
    | [] => u
    | c :: _ => if isAsciiAlphaChar c && before.all isSchemeChar then after else u
  | (_, none) => u

/-- Strip `//netloc` (up to the next `/`, `?` or `#`, which is kept). -/
def dropNetloc (u : List Char) : List Char :=
  match u with
  | '/' :: '/' :: rest => rest.dropWhile (fun c => !(c == '/' || c == '?' || c == '#'))
  | _ => u

/-- Split a list at its last `/`: `some (before, after)` with
`l = before ++ '/' :: after` and no `/` in `after`; `none` when no `/` occurs. -/
def splitAtLastSlash : List Char → Option (List Char × List Char)
  | [] => none
  | c :: rest =>
    match splitAtLastSlash rest with
    | some (a, b) => some (c :: a, b)
    | none => if c == '/' then some ([], rest) else none

/-- `urlparse`'s params split: drop `;params` from the last path segment. -/
def dropParams (p : List Char) : List Char :=
  match splitAtLastSlash p with
  | some (before, lastSeg) => before ++ '/' :: (splitOnceAt ';' lastSeg).1
  | none => (splitOnceAt ';' p).1

/-- Model of `urlparse(url).path`: strip scheme, netloc, fragment, query, params. -/
def pyUrlparsePath (url : List Char) : List Char :=
  dropParams (splitOnceAt '?' (splitOnceAt '#' (dropNetloc (dropScheme url))).1).1

/-- Model of `os.path.basename`: everything after the last `/`. -/
def pyBasename (p : List Char) : List Char :=
  p.foldl (fun acc c => if c == '/' then [] else acc ++ [c]) []

example : pyBasename (pyUrlparsePath "https://example.com/path/test2.pdf?v=1".toList)
    = "test2.pdf".toList := by decide

/-! ### Pipeline orchestrator (src/pdf_processor.py:228-320) -/

/-- One discovered PDF link (src/pdf_processor.py:149-154). -/
structure PdfLink where
  url : List Char
  text : List Char
  nearby_text : List Char
  section_heading : List Char
deriving DecidableEq

deriving instance DecidableEq for Except

/-- The effectful outcomes of one loop iteration: the HTTP fetch of the item's
URL and the S3 `put_object` call. -/
structure ItemEffects where
  fetch : Except (List Char) FetchResponse
  store : Except (List Char) Unit
deriving DecidableEq

/-- Filename derivation (src/pdf_processor.py:253-258): basename of the URL
path; when empty or not ending in `.pdf`, sanitize the link text
(or the literal `document`) and append `.pdf`. -/
def deriveFilename (link : PdfLink) : List Char :=
  let original := pyBasename (pyUrlparsePath link.url)
  if original.isEmpty || !(".pdf".toList.isSuffixOf original) then
    sanitize_filename (if link.text.isEmpty then "document".toList else link.text)
      ++ ".pdf".toList
  else original

/-- Categorization of one item (src/pdf_processor.py:261-265): context is
`nearby_text + ' ' + section_heading`. -/
def itemSection (link : PdfLink) : List Char :=
  categorize_section link.text link.url (link.nearby_text ++ ' ' :: link.section_heading)

/-- One per-item result entry (src/pdf_processor.py:276-285, timestamp omitted). -/
structure ResultEntry where
  original_url : List Char
  filename : List Char
  link_text : List Char
  sectionLabel : List Char
  s3_key : List Char
  size : Nat
  content_type : List Char
deriving DecidableEq

/-- One per-item error entry (src/pdf_processor.py:291-295). -/
structure ErrorEntry where
  url : List Char
  link_text : List Char
  error : List Char
deriving DecidableEq

/-- The download/upload part of one loop iteration (src/pdf_processor.py:270-285):
any raised error is caught and recorded as an `ErrorEntry` with the item's
url, link text and message. -/
def itemOutcome (bucket : List Char) (link : PdfLink) (e : ItemEffects) :
    Except ErrorEntry ResultEntry :=
  let original_filename := deriveFilename link
  let sectionName := itemSection link
  match download_pdf e.fetch with
  | .error msg => .error { url := link.url, link_text := link.text, error := msg }
  | .ok (content, content_type) =>
    match (upload_to_s3 bucket content original_filename sectionName e.store).2 with
    | .error msg => .error { url := link.url, link_text := link.text, error := msg }
    | .ok up =>
      .ok { original_url := link.url, filename := original_filename,
            link_text := link.text, sectionLabel := sectionName,
            s3_key := up.key, size := content.length, content_type := content_type }

/-- `section_counts[section] = section_counts.get(section, 0) + 1` on an
insertion-ordered association list (Python dict). -/
def bumpCount : List (List Char × Nat) → List Char → List (List Char × Nat)
  | [], k => [(k, 1)]
  | (k', n) :: t, k => if k' = k then (k', n + 1) :: t else (k', n) :: bumpCount t k

/-- The main loop of `process_pdfs` (src/pdf_processor.py:249-295): per item,
bump the section counter (before download), then append either a result entry
or an error entry; `eff i` is the oracle for the item at index `i`. -/
def processItems (bucket : List Char) (eff : Nat → ItemEffects) :
    List PdfLink → Nat → List ResultEntry → List ErrorEntry → List (List Char × Nat) →
    List ResultEntry × List ErrorEntry × List (List Char × Nat)
  | [], _, results, errors, counts => (results, errors, counts)
  | link :: rest, i, results, errors, counts =>
    let counts2 := bumpCount counts (itemSection link)
    match itemOutcome bucket link (eff i) with
    | .ok entry => processItems bucket eff rest (i + 1) (results ++ [entry]) errors counts2
    | .error ee => processItems bucket eff rest (i + 1) results (errors ++ [ee]) counts2

/-- The `summary` dict of a successful `process_pdfs` run. -/
structure Summary where
  total : Nat
  successful : Nat
  failed : Nat
  sections : List (List Char × Nat)
deriving DecidableEq

/-- The `process_pdfs` return dict; `Option` fields model keys absent in some
branches (timestamps omitted). -/
structure ProcessResult where
  success : Bool
  summary : Option Summary
  results : Option (List ResultEntry)
  errors : Option (List ErrorEntry)
  message : Option (List Char)
  processed_from : Option (List Char)
  error : Option (List Char)
deriving DecidableEq

/-- `'No PDF links found on the specified page'` -/
def noLinksMsg : List Char := "No PDF links found on the specified page".toList

/-- Model of `NCDHHSPDFProcessor.process_pdfs` (src/pdf_processor.py:228-320).
`discovery` is the outcome of `discover_pdf_links(url)` (`.error` = an
exception raised during discovery, which the top-level handler turns into
the `success=False` payload). -/
def process_pdfs (bucket url : List Char) (discovery : Except (List Char) (List PdfLink))
    (eff : Nat → ItemEffects) : ProcessResult :=
  match discovery with
  | .error e =>
    { success := false, summary := none, results := none, errors := none,
      message := none, processed_from := none, error := some e }
  | .ok pdf_links =>
    if pdf_links.isEmpty then
      { success := true,
        summary := some { total := 0, successful := 0, failed := 0, sections := [] },
        results := some [], errors := none, message := some noLinksMsg,
        processed_from := none, error := none }
    else
      let out := processItems bucket eff pdf_links 0 [] [] []
      { success := true,
        summary := some { total := pdf_links.length, successful := out.1.length,
                          failed := out.2.1.length, sections := out.2.2 },
        results := some out.1,
        errors := if out.2.1.isEmpty then none else some out.2.1,
        message := none, processed_from := some url, error := none }

/-- Sum of the per-category counters (`sum(sections.values())`). -/
def sumCounts : List (List Char × Nat) → Nat
  | [] => 0
  | p :: t => p.2 + sumCounts t

/-- `l` has no two adjacent occurrences of `u`. -/
def noAdjPair (u : Char) : List Char → Bool
  | [] => true
  | [_] => true
  | a :: b :: t => !(a == u && b == u) && noAdjPair u (b :: t)

/-- Characters that `sanitize_filename` can output: `[a-z0-9.\-_]`. -/
def goodFChar (c : Char) : Bool :=
  isLowerAscii c || isDigitAscii c || c.toNat = 46 || c.toNat = 45 || c.toNat = 95

/-- Characters that `sanitize_folder_name` can output: `[a-z0-9-]`. -/
def goodDChar (c : Char) : Bool :=
  isLowerAscii c || isDigitAscii c || c.toNat = 45

/-- The value of `sanitize_folder_name` before the final `strip()`. -/
def preStripFolder (l : List Char) : List Char :=
  lowerStr (collapseRuns '-' (squashSpaces (l.filter allowedFolderChar)))

/-! ### Concrete fixtures for evaluated runs -/

/-- A demo discovered link. -/
def demoLink : PdfLink :=
  { url := "http://x/a.pdf".toList, text := "doc".toList,
    nearby_text := [], section_heading := [] }

/-- Effects where every fetch raises. -/
def failItemEff : Nat → ItemEffects := fun _ =>
  { fetch := .error "boom".toList, store := .ok () }

/-- Effects where every fetch returns a valid PDF payload and every store succeeds. -/
def okItemEff : Nat → ItemEffects := fun _ =>
  { fetch := .ok { content := [37, 80, 68, 70, 49], contentTypeHeader := "application/pdf".toList },
    store := .ok () }

/-- Two demo links. -/
def twoLinks : List PdfLink :=
  [demoLink,
   { url := "http://x/b.pdf".toList, text := "doc2".toList,
     nearby_text := [], section_heading := [] }]

/-- Effects where the first item succeeds and every later fetch raises. -/
def mixedEff : Nat → ItemEffects := fun i =>
  if i = 0 then
    { fetch := .ok { content := [37, 80, 68, 70, 49],
                     contentTypeHeader := "application/pdf".toList },
      store := .ok () }
  else
    { fetch := .error "boom".toList, store := .ok () }

/-! ### Character-level lemmas -/

theorem toNat_ofNat_of_lt {n : Nat} (h : n < 55296) : (Char.ofNat n).toNat = n := by
  have hv : n.isValidChar := Or.inl h
  rw [Char.ofNat, dif_pos hv]
  simp [Char.ofNatAux, Char.toNat, UInt32.toNat]

theorem char_toNat_inj {a b : Char} (h : a.toNat = b.toNat) : a = b := by
  have h2 := congrArg Char.ofNat h
  rwa [Char.ofNat_toNat, Char.ofNat_toNat] at h2

theorem asciiLower_toNat (c : Char) :
    (asciiLower c).toNat = if isUpperAscii c then c.toNat + 32 else c.toNat := by
  unfold asciiLower
  by_cases h : isUpperAscii c = true
  · have h2 : 65 ≤ c.toNat ∧ c.toNat ≤ 90 := by simpa [isUpperAscii] using h
    simp only [h, if_true]
    exact toNat_ofNat_of_lt (by omega)
  · simp [h]

theorem asciiLower_eq_self {c : Char} (h : isUpperAscii c = false) : asciiLower c = c := by
  simp [asciiLower, h]

/-! ### Lemmas about `collapseRuns`, `squashSpaces`, `noAdjPair` -/

theorem collapseRuns_subset {u : Char} :
    ∀ l : List Char, ∀ c ∈ collapseRuns u l, c ∈ l := by
  intro l
  induction l with
  | nil => simp [collapseRuns]
  | cons a t ih =>
    cases t with
    | nil => simp [collapseRuns]
    | cons b t2 =>
      intro c hc
      by_cases hab : (a == u && b == u) = true
      · simp only [collapseRuns, hab, if_true] at hc
        exact List.mem_cons_of_mem a (ih c hc)
      · simp [collapseRuns, hab] at hc
        rcases hc with h | h
        · exact h ▸ List.mem_cons_self a _
        · exact List.mem_cons_of_mem a (ih c h)

theorem collapseRuns_cons_head {u : Char} :
    ∀ (rest : List Char) (d : Char), ∃ t, collapseRuns u (d :: rest) = d :: t := by
  intro rest
  induction rest with
  | nil => intro d; exact ⟨[], rfl⟩
  | cons e t ih =>
    intro d
    by_cases hde : (d == u && e == u) = true
    · obtain ⟨t', ht'⟩ := ih e
      have hd : d = u := beq_iff_eq.mp ((Bool.and_eq_true _ _).mp hde).1
      have he : e = u := beq_iff_eq.mp ((Bool.and_eq_true _ _).mp hde).2
      refine ⟨t', ?_⟩
      simp only [collapseRuns, hde, if_true]
      rw [ht', hd, he]
    · exact ⟨collapseRuns u (e :: t), by simp [collapseRuns, hde]⟩

theorem collapseRuns_noAdj {u : Char} :
    ∀ l : List Char, noAdjPair u (collapseRuns u l) = true := by
  intro l
  induction l with
  | nil => simp [collapseRuns, noAdjPair]
  | cons a t ih =>
    cases t with
    | nil => simp [collapseRuns, noAdjPair]
    | cons b t2 =>
      by_cases hab : (a == u && b == u) = true
      · simpa [collapseRuns, hab] using ih
      · obtain ⟨t', ht'⟩ := collapseRuns_cons_head (u := u) t2 b
        simp only [collapseRuns, hab, if_false]
        simp only [ht'] at ih ⊢
        simp only [noAdjPair, Bool.and_eq_true, Bool.not_eq_true']
        exact ⟨by simpa using hab, ih⟩

theorem collapseRuns_of_noAdj {u : Char} :
    ∀ l : List Char, noAdjPair u l = true → collapseRuns u l = l := by
  intro l
  induction l with
  | nil => intro _; rfl
  | cons a t ih =>
    cases t with
    | nil => intro _; rfl
    | cons b t2 =>
      intro h
      simp only [noAdjPair, Bool.and_eq_true, Bool.not_eq_true'] at h
      simp [collapseRuns, h.1]
      rw [ih (by simpa [noAdjPair] using h.2)]

theorem noAdjPair_map {g : Char → Char} {u : Char} (hg : ∀ c, g c = u → c = u) :
    ∀ l : List Char, noAdjPair u l = true → noAdjPair u (l.map g) = true := by
  intro l
  induction l with
  | nil => intro _; rfl
  | cons a t ih =>
    cases t with
    | nil => intro _; rfl
    | cons b t2 =>
      intro h
      simp only [noAdjPair, Bool.and_eq_true, Bool.not_eq_true'] at h
      simp only [List.map_cons, noAdjPair, Bool.and_eq_true, Bool.not_eq_true']
      constructor
      · by_contra hcon
        simp only [Bool.not_eq_false, Bool.and_eq_true, beq_iff_eq] at hcon
        have ha := hg a hcon.1
        have hb := hg b hcon.2
        rw [ha, hb] at h
        simp at h
      · have := ih h.2
        simpa [List.map_cons] using this

theorem squashSpaces_nospace :
    ∀ l : List Char, ∀ c ∈ squashSpaces l, pyIsSpace c = false := by
  intro l
  induction l with
  | nil => simp [squashSpaces]
  | cons a t ih =>
    intro c hc
    cases t with
    | nil =>
      cases ha : pyIsSpace a with
      | true => simp [squashSpaces, ha] at hc; subst hc; decide
      | false => simp [squashSpaces, ha] at hc; subst hc; exact ha
    | cons d t2 =>
      cases ha : pyIsSpace a with
      | true =>
        cases hd : pyIsSpace d with
        | true =>
          simp only [squashSpaces, ha, hd, if_true] at hc
          exact ih c hc
        | false =>
          simp [squashSpaces, ha, hd] at hc
          rcases hc with rfl | h
          · decide
          · exact ih c h
      | false =>
        simp [squashSpaces, ha] at hc
        rcases hc with rfl | h
        · exact ha
        · exact ih c h

theorem squashSpaces_subset :
    ∀ l : List Char, ∀ c ∈ squashSpaces l, c ∈ l ∨ c = '-' := by
  intro l
  induction l with
  | nil => simp [squashSpaces]
  | cons a t ih =>
    intro c hc
    cases t with
    | nil =>
      cases ha : pyIsSpace a with
      | true => simp [squashSpaces, ha] at hc; exact Or.inr hc
      | false => simp [squashSpaces, ha] at hc; subst hc; exact Or.inl (List.mem_cons_self _ _)
    | cons d t2 =>
      cases ha : pyIsSpace a with
      | true =>
        cases hd : pyIsSpace d with
        | true =>
          simp only [squashSpaces, ha, hd, if_true] at hc
          rcases ih c hc with h | h
          · exact Or.inl (List.mem_cons_of_mem a h)
          · exact Or.inr h
        | false =>
          simp [squashSpaces, ha, hd] at hc
          rcases hc with rfl | h
          · exact Or.inr rfl
          · rcases ih c h with h2 | h2
            · exact Or.inl (List.mem_cons_of_mem a h2)
            · exact Or.inr h2
      | false =>
        simp [squashSpaces, ha] at hc
        rcases hc with rfl | h
        · exact Or.inl (List.mem_cons_self _ _)
        · rcases ih c h with h2 | h2
          · exact Or.inl (List.mem_cons_of_mem a h2)
          · exact Or.inr h2

theorem squashSpaces_of_nospace :
    ∀ l : List Char, (∀ c ∈ l, pyIsSpace c = false) → squashSpaces l = l := by
  intro l
  induction l with
  | nil => intro _; rfl
  | cons a t ih =>
    intro h
    have ha : pyIsSpace a = false := h a (List.mem_cons_self _ _)
    cases t with
    | nil => simp [squashSpaces, ha]
    | cons d t2 =>
      simp [squashSpaces, ha]
      exact ih (fun c hc => h c (List.mem_cons_of_mem a hc))

theorem map_fixed {f : Char → Char} :
    ∀ l : List Char, (∀ c ∈ l, f c = c) → l.map f = l := by
  intro l
  induction l with
  | nil => intro _; rfl
  | cons a t ih =>
    intro h
    simp only [List.map_cons]
    rw [h a (List.mem_cons_self _ _), ih (fun c hc => h c (List.mem_cons_of_mem a hc))]

theorem dropWhile_of_all_false {p : Char → Bool} :
    ∀ l : List Char, (∀ c ∈ l, p c = false) → l.dropWhile p = l := by
  intro l h
  cases l with
  | nil => rfl
  | cons a t => simp [List.dropWhile, h a (List.mem_cons_self _ _)]

theorem pyStrip_of_nospace {l : List Char} (h : ∀ c ∈ l, pyIsSpace c = false) :
    pyStrip l = l := by
  unfold pyStrip
  rw [dropWhile_of_all_false l h]
  rw [dropWhile_of_all_false l.reverse (fun c hc => h c (List.mem_reverse.mp hc))]
  exact List.reverse_reverse l

/-! ### Character classes of the sanitizer outputs -/

theorem goodFChar_asciiLower {c : Char} (h : allowedFilenameChar c = true ∨ c.toNat = 95) :
    goodFChar (asciiLower c) = true := by
  have ht := asciiLower_toNat c
  by_cases hu : isUpperAscii c = true
  · rw [if_pos hu] at ht
    have h2 : 65 ≤ c.toNat ∧ c.toNat ≤ 90 := by simpa [isUpperAscii] using hu
    simp only [goodFChar, isLowerAscii, isDigitAscii, ht, Bool.or_eq_true, Bool.and_eq_true,
      decide_eq_true_eq]
    omega
  · rw [if_neg hu] at ht
    have hu2 : ¬(65 ≤ c.toNat ∧ c.toNat ≤ 90) := by
      intro hcon
      exact hu (by simp [isUpperAscii]; omega)
    rcases h with h | h
    · simp only [allowedFilenameChar, isAsciiAlphaNum, isUpperAscii, isLowerAscii, isDigitAscii,
        Bool.or_eq_true, Bool.and_eq_true, decide_eq_true_eq] at h
      simp only [goodFChar, isLowerAscii, isDigitAscii, ht, Bool.or_eq_true, Bool.and_eq_true,
        decide_eq_true_eq]
      omega
    · simp only [goodFChar, isLowerAscii, isDigitAscii, ht, Bool.or_eq_true, Bool.and_eq_true,
        decide_eq_true_eq]
      omega

theorem goodFChar_not_upper {c : Char} (h : goodFChar c = true) : isUpperAscii c = false := by
  simp only [goodFChar, isLowerAscii, isDigitAscii, Bool.or_eq_true, Bool.and_eq_true,
    decide_eq_true_eq] at h
  simp only [isUpperAscii, Bool.and_eq_true, decide_eq_true_eq, Bool.and_eq_false_iff,
    decide_eq_false_iff_not]
  omega

theorem goodFChar_subF_fixed {c : Char} (h : goodFChar c = true) :
    (if allowedFilenameChar c then c else '_') = c := by
  by_cases hall : allowedFilenameChar c = true
  · rw [if_pos hall]
  · rw [if_neg hall]
    simp only [goodFChar, isLowerAscii, isDigitAscii, Bool.or_eq_true, Bool.and_eq_true,
      decide_eq_true_eq] at h
    have h95 : c.toNat = 95 := by
      by_contra hne
      apply hall
      simp only [allowedFilenameChar, isAsciiAlphaNum, isUpperAscii, isLowerAscii, isDigitAscii,
        Bool.or_eq_true, Bool.and_eq_true, decide_eq_true_eq]
      omega
    have h2 : ('_').toNat = c.toNat := by rw [h95]; rfl
    exact char_toNat_inj h2

theorem asciiLower_eq_underscore {c : Char} (h : asciiLower c = '_') : c = '_' := by
  have h2 := congrArg Char.toNat h
  have ht := asciiLower_toNat c
  by_cases hu : isUpperAscii c = true
  · rw [if_pos hu] at ht
    have h3 : 65 ≤ c.toNat ∧ c.toNat ≤ 90 := by simpa [isUpperAscii] using hu
    rw [ht] at h2
    have h95 : ('_').toNat = 95 := rfl
    rw [h95] at h2
    omega
  · rw [if_neg hu] at ht
    rw [ht] at h2
    exact char_toNat_inj h2

theorem asciiLower_eq_hyphen {c : Char} (h : asciiLower c = '-') : c = '-' := by
  have h2 := congrArg Char.toNat h
  have ht := asciiLower_toNat c
  by_cases hu : isUpperAscii c = true
  · rw [if_pos hu] at ht
    have h3 : 65 ≤ c.toNat ∧ c.toNat ≤ 90 := by simpa [isUpperAscii] using hu
    rw [ht] at h2
    have h45 : ('-').toNat = 45 := rfl
    rw [h45] at h2
    omega
  · rw [if_neg hu] at ht
    rw [ht] at h2
    exact char_toNat_inj h2

theorem goodDChar_not_space {c : Char} (h : goodDChar c = true) : pyIsSpace c = false := by
  simp only [goodDChar, isLowerAscii, isDigitAscii, Bool.or_eq_true, Bool.and_eq_true,
    decide_eq_true_eq] at h
  simp only [pyIsSpace, Bool.or_eq_true, Bool.and_eq_true, decide_eq_true_eq,
    Bool.or_eq_false_iff, Bool.and_eq_false_iff, decide_eq_false_iff_not]
  omega

theorem goodDChar_allowed {c : Char} (h : goodDChar c = true) : allowedFolderChar c = true := by
  simp only [goodDChar, isLowerAscii, isDigitAscii, Bool.or_eq_true, Bool.and_eq_true,
    decide_eq_true_eq] at h
  simp only [allowedFolderChar, isAsciiAlphaNum, isUpperAscii, isLowerAscii, isDigitAscii,
    Bool.or_eq_true, Bool.and_eq_true, decide_eq_true_eq]
  omega

theorem goodDChar_not_upper {c : Char} (h : goodDChar c = true) : isUpperAscii c = false := by
  simp only [goodDChar, isLowerAscii, isDigitAscii, Bool.or_eq_true, Bool.and_eq_true,
    decide_eq_true_eq] at h
  simp only [isUpperAscii, Bool.and_eq_false_iff, decide_eq_false_iff_not]
  omega

theorem goodDChar_asciiLower {c : Char} (h1 : allowedFolderChar c = true)
    (h2 : pyIsSpace c = false) : goodDChar (asciiLower c) = true := by
  have ht := asciiLower_toNat c
  by_cases hu : isUpperAscii c = true
  · rw [if_pos hu] at ht
    have h3 : 65 ≤ c.toNat ∧ c.toNat ≤ 90 := by simpa [isUpperAscii] using hu
    simp only [goodDChar, isLowerAscii, isDigitAscii, ht, Bool.or_eq_true, Bool.and_eq_true,
      decide_eq_true_eq]
    omega
  · rw [if_neg hu] at ht
    have hu2 : ¬(65 ≤ c.toNat ∧ c.toNat ≤ 90) := by
      intro hcon
      exact hu (by simp [isUpperAscii]; omega)
    simp only [allowedFolderChar, isAsciiAlphaNum, isUpperAscii, isLowerAscii, isDigitAscii,
      Bool.or_eq_true, Bool.and_eq_true, decide_eq_true_eq, h2, Bool.false_eq_true,
      or_false, false_or] at h1
    simp only [goodDChar, isLowerAscii, isDigitAscii, ht, Bool.or_eq_true, Bool.and_eq_true,
      decide_eq_true_eq]
    omega

theorem goodDChar_asciiLower_fixed {c : Char} (h : goodDChar c = true) : asciiLower c = c :=
  asciiLower_eq_self (goodDChar_not_upper h)

theorem goodFChar_asciiLower_fixed {c : Char} (h : goodFChar c = true) : asciiLower c = c :=
  asciiLower_eq_self (goodFChar_not_upper h)

/-! ### Output shape of the sanitizers -/

theorem sanitize_filename_good (l : List Char) :
    (∀ c ∈ sanitize_filename l, goodFChar c = true) ∧
    noAdjPair '_' (sanitize_filename l) = true := by
  have h0 : sanitize_filename l =
      lowerStr (collapseRuns '_' (l.map fun c => if allowedFilenameChar c then c else '_')) := rfl
  rw [h0]
  constructor
  · intro x hx
    obtain ⟨y, hy, rfl⟩ := List.mem_map.mp hx
    have hy2 := collapseRuns_subset _ y hy
    obtain ⟨a, _, rfl⟩ := List.mem_map.mp hy2
    by_cases hall : allowedFilenameChar a = true
    · rw [if_pos hall]
      exact goodFChar_asciiLower (Or.inl hall)
    · rw [if_neg hall]
      exact goodFChar_asciiLower (Or.inr (by decide))
  · exact noAdjPair_map (fun _ hc => asciiLower_eq_underscore hc) _ (collapseRuns_noAdj _)

theorem sanitize_filename_fixed {l : List Char}
    (hg : ∀ c ∈ l, goodFChar c = true) (hn : noAdjPair '_' l = true) :
    sanitize_filename l = l := by
  have h0 : sanitize_filename l =
      lowerStr (collapseRuns '_' (l.map fun c => if allowedFilenameChar c then c else '_')) := rfl
  rw [h0, map_fixed l (fun c hc => goodFChar_subF_fixed (hg c hc)),
    collapseRuns_of_noAdj l hn]
  exact map_fixed l (fun c hc => goodFChar_asciiLower_fixed (hg c hc))

theorem preStripFolder_good (l : List Char) :
    ∀ c ∈ preStripFolder l, goodDChar c = true := by
  intro x hx
  obtain ⟨y, hy, rfl⟩ := List.mem_map.mp hx
  have hy2 := collapseRuns_subset _ y hy
  have hns := squashSpaces_nospace _ y hy2
  rcases squashSpaces_subset _ y hy2 with hmem | hEq
  · have hall := (List.mem_filter.mp hmem).2
    exact goodDChar_asciiLower hall hns
  · rw [hEq]; decide

theorem preStripFolder_noAdj (l : List Char) :
    noAdjPair '-' (preStripFolder l) = true :=
  noAdjPair_map (fun _ hc => asciiLower_eq_hyphen hc) _ (collapseRuns_noAdj _)

theorem preStripFolder_nospace (l : List Char) :
    ∀ c ∈ preStripFolder l, pyIsSpace c = false :=
  fun c hc => goodDChar_not_space (preStripFolder_good l c hc)

/-- The final `strip()` of `sanitize_folder_name` is a no-op: by the time it
runs, every whitespace run has already been replaced by `-`. -/
theorem sanitize_folder_name_eq_preStrip (l : List Char) :
    sanitize_folder_name l = preStripFolder l := by
  have h0 : sanitize_folder_name l = pyStrip (preStripFolder l) := rfl
  rw [h0, pyStrip_of_nospace (preStripFolder_nospace l)]

theorem sanitize_folder_name_good (l : List Char) :
    (∀ c ∈ sanitize_folder_name l, goodDChar c = true) ∧
    noAdjPair '-' (sanitize_folder_name l) = true := by
  rw [sanitize_folder_name_eq_preStrip]
  exact ⟨preStripFolder_good l, preStripFolder_noAdj l⟩

theorem sanitize_folder_name_fixed {l : List Char}
    (hg : ∀ c ∈ l, goodDChar c = true) (hn : noAdjPair '-' l = true) :
    sanitize_folder_name l = l := by
  have h0 : sanitize_folder_name l =
      pyStrip (lowerStr (collapseRuns '-' (squashSpaces (l.filter allowedFolderChar)))) := rfl
  rw [h0, List.filter_eq_self.mpr (fun c hc => goodDChar_allowed (hg c hc)),
    squashSpaces_of_nospace l (fun c hc => goodDChar_not_space (hg c hc)),
    collapseRuns_of_noAdj l hn,
    show lowerStr l = l from map_fixed l (fun c hc => goodDChar_asciiLower_fixed (hg c hc))]
  exact pyStrip_of_nospace (fun c hc => goodDChar_not_space (hg c hc))

/-! ### Loop invariants of `processItems` -/

theorem bumpCount_sum (cs : List (List Char × Nat)) (k : List Char) :
    sumCounts (bumpCount cs k) = sumCounts cs + 1 := by
  induction cs with
  | nil => rfl
  | cons p t ih =>
    obtain ⟨k2, n⟩ := p
    by_cases hk : k2 = k
    · simp [bumpCount, hk, sumCounts]
      omega
    · simp [bumpCount, hk, sumCounts, ih]
      omega

theorem processItems_step (bucket : List Char) (eff : Nat → ItemEffects)
    (link : PdfLink) (rest : List PdfLink) (i : Nat) (rs : List ResultEntry)
    (es : List ErrorEntry) (cs : List (List Char × Nat)) :
    processItems bucket eff (link :: rest) i rs es cs =
      match itemOutcome bucket link (eff i) with
      | .ok entry =>
        processItems bucket eff rest (i + 1) (rs ++ [entry]) es (bumpCount cs (itemSection link))
      | .error ee =>
        processItems bucket eff rest (i + 1) rs (es ++ [ee]) (bumpCount cs (itemSection link)) :=
  rfl

theorem processItems_len (bucket : List Char) (eff : Nat → ItemEffects) :
    ∀ (links : List PdfLink) (i : Nat) (rs : List ResultEntry) (es : List ErrorEntry)
      (cs : List (List Char × Nat)),
      (processItems bucket eff links i rs es cs).1.length +
        (processItems bucket eff links i rs es cs).2.1.length =
        rs.length + es.length + links.length := by
  intro links
  induction links with
  | nil => intro i rs es cs; simp [processItems]
  | cons link rest ih =>
    intro i rs es cs
    rw [processItems_step]
    cases h : itemOutcome bucket link (eff i) with
    | ok entry =>
      have h2 := ih (i + 1) (rs ++ [entry]) es (bumpCount cs (itemSection link))
      simp only [List.length_append, List.length_cons, List.length_nil] at h2 ⊢
      omega
    | error ee =>
      have h2 := ih (i + 1) rs (es ++ [ee]) (bumpCount cs (itemSection link))
      simp only [List.length_append, List.length_cons, List.length_nil] at h2 ⊢
      omega

theorem processItems_sum (bucket : List Char) (eff : Nat → ItemEffects) :
    ∀ (links : List PdfLink) (i : Nat) (rs : List ResultEntry) (es : List ErrorEntry)
      (cs : List (List Char × Nat)),
      sumCounts (processItems bucket eff links i rs es cs).2.2 =
        sumCounts cs + links.length := by
  intro links
  induction links with
  | nil => intro i rs es cs; simp [processItems]
  | cons link rest ih =>
    intro i rs es cs
    rw [processItems_step]
    cases h : itemOutcome bucket link (eff i) with
    | ok entry =>
      rw [ih (i + 1) (rs ++ [entry]) es (bumpCount cs (itemSection link)), bumpCount_sum]
      simp [List.length_cons]
      omega
    | error ee =>
      rw [ih (i + 1) rs (es ++ [ee]) (bumpCount cs (itemSection link)), bumpCount_sum]
      simp [List.length_cons]
      omega

theorem processItems_err_mono (bucket : List Char) (eff : Nat → ItemEffects) :
    ∀ (links : List PdfLink) (i : Nat) (rs : List ResultEntry) (es : List ErrorEntry)
      (cs : List (List Char × Nat)) (x : ErrorEntry),
      x ∈ es → x ∈ (processItems bucket eff links i rs es cs).2.1 := by
  intro links
  induction links with
  | nil => intro i rs es cs x hx; simpa [processItems] using hx
  | cons link rest ih =>
    intro i rs es cs x hx
    rw [processItems_step]
    cases h : itemOutcome bucket link (eff i) with
    | ok entry => exact ih (i + 1) (rs ++ [entry]) es _ x hx
    | error ee =>
      exact ih (i + 1) rs (es ++ [ee]) _ x (List.mem_append.mpr (Or.inl hx))

theorem processItems_err_mem (bucket : List Char) (eff : Nat → ItemEffects) :
    ∀ (links : List PdfLink) (i : Nat) (rs : List ResultEntry) (es : List ErrorEntry)
      (cs : List (List Char × Nat)) (j : Nat) (hj : j < links.length) (ee : ErrorEntry),
      itemOutcome bucket (links.get ⟨j, hj⟩) (eff (i + j)) = .error ee →
      ee ∈ (processItems bucket eff links i rs es cs).2.1 := by
  intro links
  induction links with
  | nil => intro i rs es cs j hj; exact absurd hj (by simp)
  | cons link rest ih =>
    intro i rs es cs j hj ee hee
    rw [processItems_step]
    cases j with
    | zero =>
      simp only [List.get] at hee
      rw [Nat.add_zero] at hee
      rw [hee]
      exact processItems_err_mono bucket eff rest (i + 1) rs (es ++ [ee]) _ ee
        (List.mem_append.mpr (Or.inr (List.mem_singleton.mpr rfl)))
    | succ j2 =>
      have hj2 : j2 < rest.length := by simpa using hj
      have hee2 : itemOutcome bucket (rest.get ⟨j2, hj2⟩) (eff ((i + 1) + j2)) = .error ee := by
        have harith : i + (j2 + 1) = (i + 1) + j2 := by omega
        simpa [List.get, harith] using hee
      cases h : itemOutcome bucket link (eff i) with
      | ok entry => exact ih (i + 1) (rs ++ [entry]) es _ j2 hj2 ee hee2
      | error ee2 => exact ih (i + 1) rs (es ++ [ee2]) _ j2 hj2 ee hee2

/-- A per-item loop iteration whose download raises, or whose download succeeds
and whose upload raises, is recorded as an error entry carrying the item's
url, link text and the raised message (src/pdf_processor.py:289-295). -/
theorem itemOutcome_error_of_fail {bucket : List Char} {link : PdfLink} {e : ItemEffects}
    {msg : List Char}
    (hfail : download_pdf e.fetch = .error msg ∨
      ((∃ c ct, download_pdf e.fetch = .ok (c, ct)) ∧ e.store = .error msg)) :
    itemOutcome bucket link e = .error { url := link.url, link_text := link.text, error := msg } := by
  rcases hfail with h | ⟨⟨c, ct, h⟩, hs⟩
  · unfold itemOutcome
    rw [h]
  · simp only [itemOutcome, h, upload_to_s3, hs]

/-! ### Claim theorems -/

/-- C1, amended: in every `process_pdfs` result with `success = true`, the
per-category counters sum to `summary.total` (the number of discovered links),
not to `summary.successful`: the counter is bumped when an item is
categorized, before its download/upload is attempted. -/
theorem claim_C1_amended (bucket url : List Char) (discovery : Except (List Char) (List PdfLink))
    (eff : Nat → ItemEffects)
    (h : (process_pdfs bucket url discovery eff).success = true) :
    ∃ s, (process_pdfs bucket url discovery eff).summary = some s ∧
      sumCounts s.sections = s.total := by
  cases discovery with
  | error e => exact absurd h (by simp [process_pdfs])
  | ok links =>
    by_cases he : links.isEmpty = true
    · have hrun : process_pdfs bucket url (.ok links) eff =
          { success := true,
            summary := some { total := 0, successful := 0, failed := 0, sections := [] },
            results := some [], errors := none, message := some noLinksMsg,
            processed_from := none, error := none } := by
        simp [process_pdfs, he]
      rw [hrun]
      exact ⟨_, rfl, rfl⟩
    · have he2 : links.isEmpty = false := by simpa using he
      have hrun : process_pdfs bucket url (.ok links) eff =
          { success := true,
            summary := some
              { total := links.length,
                successful := (processItems bucket eff links 0 [] [] []).1.length,
                failed := (processItems bucket eff links 0 [] [] []).2.1.length,
                sections := (processItems bucket eff links 0 [] [] []).2.2 },
            results := some (processItems bucket eff links 0 [] [] []).1,
            errors := if (processItems bucket eff links 0 [] [] []).2.1.isEmpty then none
              else some (processItems bucket eff links 0 [] [] []).2.1,
            message := none, processed_from := some url, error := none } := by
        simp [process_pdfs, he2]
      rw [hrun]
      refine ⟨_, rfl, ?_⟩
      simpa [sumCounts] using processItems_sum bucket eff links 0 [] [] []

/-- C1, counterexample: a run over one discovered link whose download raises
returns `success = true` with `sections` summing to 1 while `successful = 0`,
so `sum(sections.values()) = successful` fails on the code. -/
theorem claim_C1_counterexample :
    (process_pdfs "b".toList "u".toList (.ok [demoLink]) failItemEff).success = true ∧
    ∃ s, (process_pdfs "b".toList "u".toList (.ok [demoLink]) failItemEff).summary = some s ∧
      sumCounts s.sections ≠ s.successful :=
  ⟨by decide, ⟨{ total := 1, successful := 0, failed := 1,
                 sections := [("other-resources".toList, 1)] }, by decide, by decide⟩⟩

/-- C1, witness: the amended claim at a concrete all-success run. -/
theorem claim_C1_witness :
    (process_pdfs "b".toList "u".toList (.ok [demoLink]) okItemEff).success = true ∧
    ∃ s, (process_pdfs "b".toList "u".toList (.ok [demoLink]) okItemEff).summary = some s ∧
      sumCounts s.sections = s.total :=
  ⟨by decide, claim_C1_amended "b".toList "u".toList (.ok [demoLink]) okItemEff (by decide)⟩

/-- C2, counterexample: `categorize_section "CPS Assessment" "cps.pdf"
"child welfare"` returns `other-resources`, not `child-welfare-manuals`:
no rule keyword (in particular neither `cps-assessments` nor
`child welfare manual`) occurs in the lower-cased concatenation. -/
theorem claim_C2_counterexample :
    categorize_section "CPS Assessment".toList "cps.pdf".toList "child welfare".toList =
      "other-resources".toList ∧
    categorize_section "CPS Assessment".toList "cps.pdf".toList "child welfare".toList ≠
      "child-welfare-manuals".toList := by decide

/-- C2, amended: on inputs whose concatenation does contain a rule-1 keyword
(the repository's own test inputs), `categorize_section` returns
`child-welfare-manuals`. -/
theorem claim_C2_amended :
    categorize_section "CPS Assessment Manual".toList "cps-assessments.pdf".toList
      "child welfare manual".toList = "child-welfare-manuals".toList := by decide

/-- C3, amended: every `sanitize_folder_name` output is lower-cased and
contains no whitespace character at all (hence none leading or trailing);
leading and trailing hyphens, however, are NOT trimmed — the final `strip()`
only strips whitespace, which step 2 has already turned into hyphens. -/
theorem claim_C3_amended (s : List Char) :
    lowerStr (sanitize_folder_name s) = sanitize_folder_name s ∧
    (sanitize_folder_name s).all (fun c => !pyIsSpace c) = true := by
  constructor
  · exact map_fixed _
      (fun c hc => goodDChar_asciiLower_fixed ((sanitize_folder_name_good s).1 c hc))
  · rw [List.all_eq_true]
    intro c hc
    simp [goodDChar_not_space ((sanitize_folder_name_good s).1 c hc)]

/-- C3, counterexample: `sanitize_folder_name " a " = "-a-"`, which has a
leading and a trailing hyphen, refuting the claim that leading/trailing
hyphens are trimmed. -/
theorem claim_C3_counterexample :
    sanitize_folder_name " a ".toList = ['-', 'a', '-'] ∧
    (sanitize_folder_name " a ".toList).head? = some '-' ∧
    (sanitize_folder_name " a ".toList).getLast? = some '-' := by decide

/-- C4: both sanitizers are idempotent: `f (f x) = f x` for every string `x`. -/
theorem claim_C4 (x : List Char) :
    sanitize_filename (sanitize_filename x) = sanitize_filename x ∧
    sanitize_folder_name (sanitize_folder_name x) = sanitize_folder_name x :=
  ⟨sanitize_filename_fixed (sanitize_filename_good x).1 (sanitize_filename_good x).2,
   sanitize_folder_name_fixed (sanitize_folder_name_good x).1 (sanitize_folder_name_good x).2⟩

/-- C5: every `process_pdfs` run over a successful discovery returns
`success = true` with `summary.total` = number of discovered links,
`summary.successful` = length of `results`, `summary.failed` = length of the
`errors` list (0 when the field is absent), and `total = successful + failed`. -/
theorem claim_C5 (bucket url : List Char) (links : List PdfLink) (eff : Nat → ItemEffects) :
    (process_pdfs bucket url (.ok links) eff).success = true ∧
    ∃ s, (process_pdfs bucket url (.ok links) eff).summary = some s ∧
      s.total = links.length ∧
      s.successful = ((process_pdfs bucket url (.ok links) eff).results.getD []).length ∧
      s.failed = ((process_pdfs bucket url (.ok links) eff).errors.getD []).length ∧
      s.total = s.successful + s.failed := by
  cases links with
  | nil => exact ⟨rfl, ⟨_, rfl, rfl, rfl, rfl, rfl⟩⟩
  | cons a t =>
    have hlen := processItems_len bucket eff (a :: t) 0 [] [] []
    have hrun : process_pdfs bucket url (.ok (a :: t)) eff =
        { success := true,
          summary := some
            { total := (a :: t).length,
              successful := (processItems bucket eff (a :: t) 0 [] [] []).1.length,
              failed := (processItems bucket eff (a :: t) 0 [] [] []).2.1.length,
              sections := (processItems bucket eff (a :: t) 0 [] [] []).2.2 },
          results := some (processItems bucket eff (a :: t) 0 [] [] []).1,
          errors := if (processItems bucket eff (a :: t) 0 [] [] []).2.1.isEmpty then none
            else some (processItems bucket eff (a :: t) 0 [] [] []).2.1,
          message := none, processed_from := some url, error := none } := by
      simp [process_pdfs]
    rw [hrun]
    refine ⟨rfl, _, rfl, rfl, rfl, ?_, ?_⟩
    · by_cases hemp : (processItems bucket eff (a :: t) 0 [] [] []).2.1.isEmpty = true
      · have hnil : (processItems bucket eff (a :: t) 0 [] [] []).2.1 = [] :=
          List.isEmpty_iff.mp hemp
        simp [hemp, hnil]
      · have hemp2 : (processItems bucket eff (a :: t) 0 [] [] []).2.1.isEmpty = false := by
          simpa using hemp
        simp [hemp2]
    · simpa using hlen.symm

/-- C6: `categorize_section` is first-match-wins over the fixed ordered rule
list: it agrees with the spec-side `categorizeFirstMatch` (the first rule any
of whose keywords occurs in the lower-cased concatenation wins, regardless of
later rules), and when no rule keyword is present it returns
`other-resources`. -/
theorem claim_C6 (link_text link_url nearby_text : List Char) :
    categorize_section link_text link_url nearby_text =
      categorizeFirstMatch link_text link_url nearby_text ∧
    (categoryRules.all
        (fun r => !hasAnyKw r.1 (catText link_text link_url nearby_text)) = true →
      categorize_section link_text link_url nearby_text = "other-resources".toList) := by
  constructor
  · unfold categorize_section categorizeFirstMatch
    cases h1 : hasAnyKw kwManuals (catText link_text link_url nearby_text) with
    | true => simp [categoryRules, List.find?, h1]
    | false =>
      cases h2 : hasAnyKw kwAppendices (catText link_text link_url nearby_text) with
      | true => simp [categoryRules, List.find?, h1, h2]
      | false =>
        cases h3 : hasAnyKw kwPractice (catText link_text link_url nearby_text) with
        | true => simp [categoryRules, List.find?, h1, h2, h3]
        | false =>
          cases h4 : hasAnyKw kwSafeSleep (catText link_text link_url nearby_text) with
          | true => simp [categoryRules, List.find?, h1, h2, h3, h4]
          | false =>
            cases h5 : hasAnyKw kwDisaster (catText link_text link_url nearby_text) with
            | true => simp [categoryRules, List.find?, h1, h2, h3, h4, h5]
            | false =>
              cases h6 : hasAnyKw kwPathSdm (catText link_text link_url nearby_text) with
              | true => simp [categoryRules, List.find?, h1, h2, h3, h4, h5, h6]
              | false =>
                cases h7 : hasAnyKw kwAdmin (catText link_text link_url nearby_text) with
                | true => simp [categoryRules, List.find?, h1, h2, h3, h4, h5, h6, h7]
                | false => simp [categoryRules, List.find?, h1, h2, h3, h4, h5, h6, h7]
  · intro hall
    simp only [categoryRules, List.all_cons, List.all_nil, Bool.and_eq_true,
      Bool.not_eq_true', and_true] at hall
    obtain ⟨n1, n2, n3, n4, n5, n6, n7⟩ := hall
    unfold categorize_section
    simp [n1, n2, n3, n4, n5, n6, n7]

/-- C6, witness: the fallback branch at the spec's own example inputs. -/
theorem claim_C6_witness :
    categoryRules.all (fun r => !hasAnyKw r.1 (catText "Unknown Document".toList
      "unknown.pdf".toList "random text".toList)) = true ∧
    categorize_section "Unknown Document".toList "unknown.pdf".toList "random text".toList =
      "other-resources".toList :=
  ⟨by decide, (claim_C6 "Unknown Document".toList "unknown.pdf".toList "random text".toList).2
    (by decide)⟩

/-- C7: `download_pdf` accepts a fetched payload iff the body starts with the
4-byte `%PDF` signature or the (lower-cased) declared content type contains
`pdf`; on acceptance it returns the raw bytes with that content type, and
otherwise it raises a validation error whose message carries the observed
(lower-cased) declared content type. -/
theorem claim_C7 (resp : FetchResponse) :
    if pdfMagic.isPrefixOf resp.content ||
        isSubstrOf "pdf".toList (lowerStr resp.contentTypeHeader) then
      download_pdf (.ok resp) = .ok (resp.content, lowerStr resp.contentTypeHeader)
    else
      download_pdf (.ok resp) = .error (invalidTypeMsg ++ lowerStr resp.contentTypeHeader) := by
  cases ha : pdfMagic.isPrefixOf resp.content with
  | true => simp [download_pdf, ha]
  | false =>
    cases hb : isSubstrOf "pdf".toList (lowerStr resp.contentTypeHeader) with
    | true =>
      have hb2 : isSubstrOf ['p', 'd', 'f'] (lowerStr resp.contentTypeHeader) = true := hb
      simp [download_pdf, ha, hb2]
    | false =>
      have hb2 : isSubstrOf ['p', 'd', 'f'] (lowerStr resp.contentTypeHeader) = false := hb
      simp [download_pdf, ha, hb2]

/-- C8: a per-item failure (download raises, or download succeeds and upload
raises) is recorded as an error entry with that item's url, anchor text and
message; the run still returns `success = true` and every discovered item is
accounted for (`|results| + |errors| = |links|`). -/
theorem claim_C8 (bucket url : List Char) (links : List PdfLink) (eff : Nat → ItemEffects)
    (j : Nat) (hj : j < links.length) (msg : List Char)
    (hfail : download_pdf (eff j).fetch = .error msg ∨
      ((∃ c ct, download_pdf (eff j).fetch = .ok (c, ct)) ∧ (eff j).store = .error msg)) :
    (process_pdfs bucket url (.ok links) eff).success = true ∧
    ({ url := (links.get ⟨j, hj⟩).url, link_text := (links.get ⟨j, hj⟩).text,
       error := msg } : ErrorEntry)
      ∈ ((process_pdfs bucket url (.ok links) eff).errors.getD []) ∧
    ((process_pdfs bucket url (.ok links) eff).results.getD []).length +
      ((process_pdfs bucket url (.ok links) eff).errors.getD []).length = links.length := by
  have hne : links.isEmpty = false := by
    cases links with
    | nil => exact absurd hj (by simp)
    | cons a t => rfl
  have hio : itemOutcome bucket (links.get ⟨j, hj⟩) (eff (0 + j)) =
      .error { url := (links.get ⟨j, hj⟩).url, link_text := (links.get ⟨j, hj⟩).text,
               error := msg } := by
    rw [Nat.zero_add]
    exact itemOutcome_error_of_fail hfail
  have hmem := processItems_err_mem bucket eff links 0 [] [] [] j hj _ hio
  have hnotnil : (processItems bucket eff links 0 [] [] []).2.1.isEmpty = false := by
    cases hq : (processItems bucket eff links 0 [] [] []).2.1 with
    | nil => rw [hq] at hmem; exact absurd hmem (by simp)
    | cons x xs => rfl
  have hrun : process_pdfs bucket url (.ok links) eff =
      { success := true,
        summary := some
          { total := links.length,
            successful := (processItems bucket eff links 0 [] [] []).1.length,
            failed := (processItems bucket eff links 0 [] [] []).2.1.length,
            sections := (processItems bucket eff links 0 [] [] []).2.2 },
        results := some (processItems bucket eff links 0 [] [] []).1,
        errors := if (processItems bucket eff links 0 [] [] []).2.1.isEmpty then none
          else some (processItems bucket eff links 0 [] [] []).2.1,
        message := none, processed_from := some url, error := none } := by
    simp [process_pdfs, hne]
  rw [hrun]
  refine ⟨rfl, ?_, ?_⟩
  · simpa [hnotnil] using hmem
  · simpa [hnotnil] using processItems_len bucket eff links 0 [] [] []

/-- C8, witness: a two-link run whose second download raises `boom`. -/
theorem claim_C8_witness :
    download_pdf (mixedEff 1).fetch = .error "boom".toList ∧
    ((process_pdfs "b".toList "u".toList (.ok twoLinks) mixedEff).success = true ∧
      ({ url := (twoLinks.get ⟨1, by decide⟩).url,
         link_text := (twoLinks.get ⟨1, by decide⟩).text,
         error := "boom".toList } : ErrorEntry)
        ∈ ((process_pdfs "b".toList "u".toList (.ok twoLinks) mixedEff).errors.getD []) ∧
      ((process_pdfs "b".toList "u".toList (.ok twoLinks) mixedEff).results.getD []).length +
        ((process_pdfs "b".toList "u".toList (.ok twoLinks) mixedEff).errors.getD []).length =
          twoLinks.length) :=
  ⟨by decide,
   claim_C8 "b".toList "u".toList twoLinks mixedEff 1 (by decide) "boom".toList
     (Or.inl (by decide))⟩

/-- C9: a run whose discovery finds zero links returns the success record with
`total = 0`, empty results and the explanatory message, while an exception
raised during discovery yields `success = false` with the message as the
`error` payload. -/
theorem claim_C9 (bucket url msg : List Char) (eff : Nat → ItemEffects) :
    process_pdfs bucket url (.ok []) eff =
      { success := true,
        summary := some { total := 0, successful := 0, failed := 0, sections := [] },
        results := some [], errors := none, message := some noLinksMsg,
        processed_from := none, error := none } ∧
    (process_pdfs bucket url (.error msg) eff).success = false ∧
    (process_pdfs bucket url (.error msg) eff).error = some msg :=
  ⟨rfl, rfl, rfl⟩

/-- C10: `upload_to_s3` always issues its `put_object` request with the
constant content type `application/pdf` and the key
`ncdhhs-pdfs/<sanitized section>/<sanitized filename>`, for every input
(in particular independently of whatever content type the download observed);
the observed content type only ends up in the per-item result entry. -/
theorem claim_C10 (bucket : List Char) (content : List Nat) (filename sectionName : List Char)
    (store : Except (List Char) Unit) (link : PdfLink) (e : ItemEffects)
    (c : List Nat) (ct : List Char) :
    ((upload_to_s3 bucket content filename sectionName store).1.contentType =
        "application/pdf".toList ∧
      (upload_to_s3 bucket content filename sectionName store).1.key =
        "ncdhhs-pdfs/".toList ++ sanitize_folder_name sectionName ++
          '/' :: sanitize_filename filename) ∧
    (download_pdf e.fetch = .ok (c, ct) → e.store = .ok () →
      itemOutcome bucket link e = .ok
        { original_url := link.url, filename := deriveFilename link, link_text := link.text,
          sectionLabel := itemSection link,
          s3_key := "ncdhhs-pdfs/".toList ++ sanitize_folder_name (itemSection link) ++
            '/' :: sanitize_filename (deriveFilename link),
          size := c.length, content_type := ct }) := by
  refine ⟨⟨rfl, rfl⟩, ?_⟩
  intro hd hs
  simp only [itemOutcome, hd, upload_to_s3, hs]

/-- C10, witness: the request fields at concrete inputs, and a concrete
successful item whose entry records the observed content type. -/
theorem claim_C10_witness :
    download_pdf (okItemEff 0).fetch =
        .ok ([37, 80, 68, 70, 49], "application/pdf".toList) ∧
    (okItemEff 0).store = .ok () ∧
    ((upload_to_s3 "b".toList [1, 2] "A b.pdf".toList "Sec X".toList
        (.ok ())).1.contentType = "application/pdf".toList ∧
      (upload_to_s3 "b".toList [1, 2] "A b.pdf".toList "Sec X".toList (.ok ())).1.key =
        "ncdhhs-pdfs/".toList ++ sanitize_folder_name "Sec X".toList ++
          '/' :: sanitize_filename "A b.pdf".toList) ∧
    itemOutcome "b".toList demoLink (okItemEff 0) = .ok
      { original_url := demoLink.url, filename := deriveFilename demoLink,
        link_text := demoLink.text, sectionLabel := itemSection demoLink,
        s3_key := "ncdhhs-pdfs/".toList ++ sanitize_folder_name (itemSection demoLink) ++
          '/' :: sanitize_filename (deriveFilename demoLink),
        size := 5, content_type := "application/pdf".toList } :=
  ⟨by decide, rfl,
   (claim_C10 "b".toList [1, 2] "A b.pdf".toList "Sec X".toList (.ok ()) demoLink (okItemEff 0)
      [37, 80, 68, 70, 49] "application/pdf".toList).1,
   (claim_C10 "b".toList [1, 2] "A b.pdf".toList "Sec X".toList (.ok ()) demoLink (okItemEff 0)
      [37, 80, 68, 70, 49] "application/pdf".toList).2 (by decide) rfl⟩

end PdfProc
